import Mathlib

/-!
Verification development for the φ-BBP formula repository.

The repository evaluates a BBP-type series for π (radix 4096, 8 coefficient
slots, final scale factor 64) and runs a verification harness of seven
pass/fail checks.  We embed the numeric core shallowly:

* `mpmath` arbitrary-precision reals are modelled by exact arithmetic — the
  series evaluators work in ℚ (their inputs are rational), and the analyzer,
  identity and closed-form checks work in ℝ.  The `precision` argument of
  each entry point (which in the source only sets the ambient working
  precision `mp.dps`) is threaded through as an explicit, value-irrelevant
  parameter.
* Python `for k in range(n)` loops become sums over `List.range`; a negative
  bound yields the empty range, exactly as in Python.
-/

namespace PhiBBP

/-- Integer coefficients `INT_COEFS` (verify_formula.py line 27). -/
def INT_COEFS : List ℤ := [256, -32, 4, 1, -128, -64, -128, 4]

/-- The eight φ-corrections `PHI_CORRECTIONS` (verify_formula.py lines 30-39),
read as exact decimal literals. -/
def PHI_CORRECTIONS : List ℚ :=
  [0.021013707249693914,
   -0.047113568832732489,
   0.007043075951984248,
   0.013181561904277411,
   0.073263011134871173,
   -0.102346114400464053,
   -0.153352294762736929,
   0.047671994116562255]

/-- Slot structure `SLOTS`: (period, offset) pairs (verify_formula.py line 42). -/
def SLOTS : List (ℕ × ℕ) := [(4, 1), (4, 3), (12, 1), (12, 3), (12, 5), (12, 7), (12, 9), (12, 11)]

/-- One slot contribution inside the inner loop of `evaluate_phi_bbp` /
`evaluate_integer_only` (verify_formula.py lines 74-77 and 94-97):
`denom = period * k + offset; if denom != 0: inner += coef / denom`. -/
def slot_term (pc : (ℕ × ℕ) × ℚ) (k : ℕ) : ℚ :=
  if pc.1.1 * k + pc.1.2 ≠ 0 then pc.2 / ((pc.1.1 * k + pc.1.2 : ℕ) : ℚ) else 0

/-- The inner sum over `zip(SLOTS, coefs)` for one term index `k`
(verify_formula.py lines 73-77). -/
def inner_sum (cfg : List ((ℕ × ℕ) × ℚ)) (k : ℕ) : ℚ :=
  (cfg.map fun pc => slot_term pc k).sum

/-- The series loop shared by both evaluators (verify_formula.py lines 68-81
and 88-101): `result = Σ_{k in range(n_terms)} (-1)^k * (1/4096^k) * inner(k)`,
then `result / 64`.  `n_terms` is an `int`; Python `range` of a negative
number is empty, which `Int.toNat` reproduces.  `precision` sets `mp.dps`
in the source and does not enter the exact value. -/
def eval_series (cfg : List ((ℕ × ℕ) × ℚ)) (n_terms : ℤ) (precision : ℕ) : ℚ :=
  (((List.range n_terms.toNat).map fun k =>
      (-1 : ℚ) ^ k * (1 / (4096 : ℚ) ^ k) * inner_sum cfg k).sum) / 64

/-- `effective_coefs = [INT_COEFS[i] + PHI_CORRECTIONS[i] for i in range(8)]`
(verify_formula.py line 66). -/
def effective_coefs : List ℚ :=
  (List.range 8).map fun i => (INT_COEFS.getD i 0 : ℚ) + PHI_CORRECTIONS.getD i 0

/-- `evaluate_phi_bbp` (verify_formula.py lines 61-81). -/
def evaluate_phi_bbp (n_terms : ℤ) (precision : ℕ) : ℚ :=
  eval_series (SLOTS.zip effective_coefs) n_terms precision

/-- The integer coefficients as rationals, as used by the inner loop of
`evaluate_integer_only` (verify_formula.py line 94). -/
def int_coefs_q : List ℚ := INT_COEFS.map fun a => (a : ℚ)

/-- `evaluate_integer_only` (verify_formula.py lines 84-101). -/
def evaluate_integer_only (n_terms : ℤ) (precision : ℕ) : ℚ :=
  eval_series (SLOTS.zip int_coefs_q) n_terms precision

/-- C3 (counterexample): at the concrete negative input `n_terms = -1`,
`evaluate_phi_bbp` does not fail with an InvalidArgument-class error — the
`for k in range(n_terms)` loop is empty and the function returns `0/64 = 0`.
There is no error path in the source. -/
theorem evaluate_negative_counterexample : evaluate_phi_bbp (-1) 200 = 0 := by
  unfold evaluate_phi_bbp eval_series
  rw [Int.toNat_of_nonpos (by decide)]
  simp

/-- C3 (amended): for every negative `n_terms` the series evaluator raises no
error and returns 0: the term loop is empty, so the result is the empty sum
divided by 64. -/
theorem evaluate_negative_no_error (n : ℤ) (precision : ℕ) (h : n < 0) :
    evaluate_phi_bbp n precision = 0 := by
  unfold evaluate_phi_bbp eval_series
  rw [Int.toNat_of_nonpos (le_of_lt h)]
  simp

/-- Witness for C3 (amended) at `n_terms = -2`, `precision = 50`. -/
theorem evaluate_negative_no_error_witness :
    (-2 : ℤ) < 0 ∧ evaluate_phi_bbp (-2) 50 = 0 :=
  ⟨by decide, evaluate_negative_no_error (-2) 50 (by decide)⟩

/-- C10: for every negative `n_terms` and positive precision, both series
evaluators return exactly 0 without raising any error: the term loop is
empty, so the result is the empty sum divided by 64. -/
theorem both_evaluators_negative_zero (n : ℤ) (precision : ℕ)
    (hn : n < 0) (hp : 0 < precision) :
    evaluate_phi_bbp n precision = 0 ∧ evaluate_integer_only n precision = 0 := by
  unfold evaluate_phi_bbp evaluate_integer_only eval_series
  rw [Int.toNat_of_nonpos (le_of_lt hn)]
  simp

/-- Witness for C10 at `n_terms = -3`, `precision = 1`. -/
theorem both_evaluators_negative_zero_witness :
    ((-3 : ℤ) < 0 ∧ (0 : ℕ) < 1) ∧
      (evaluate_phi_bbp (-3) 1 = 0 ∧ evaluate_integer_only (-3) 1 = 0) :=
  ⟨⟨by decide, by decide⟩, both_evaluators_negative_zero (-3) 1 (by decide) (by decide)⟩

/-! ### The spec-side series formula (claims C2, C8, C9) -/

/-- The inner slot sum without the defensive zero-denominator guard, used to
state the spec formula `inner(k) = Σ_slot effective_coef_slot / (period_slot·k
+ offset_slot)` and the unreachability of the skip branch. -/
def inner_sum_unguarded (cfg : List ((ℕ × ℕ) × ℚ)) (k : ℕ) : ℚ :=
  (cfg.map fun pc => pc.2 / ((pc.1.1 * k + pc.1.2 : ℕ) : ℚ)).sum

/-- Effective coefficients per the spec: integer part plus correction
(corrected mode). -/
def spec_effective_corrected : List ℚ :=
  List.zipWith (fun a c => (a : ℚ) + c) INT_COEFS PHI_CORRECTIONS

/-- Effective coefficients per the spec: integer part alone
(integer-only mode). -/
def spec_effective_int : List ℚ := INT_COEFS.map fun a => (a : ℚ)

/-- The formula stated by the spec: the partial sum
`Σ_{k=0}^{n_terms-1} (-1)^k · 4096^(-k) · Σ_slot coef_slot/(period·k+offset)`
divided by the fixed scale factor 64. -/
def specSeriesSum (cfg : List ((ℕ × ℕ) × ℚ)) (n_terms : ℕ) : ℚ :=
  (∑ k in Finset.range n_terms,
      (-1 : ℚ) ^ k * ((4096 : ℚ) ^ k)⁻¹ * inner_sum_unguarded cfg k) / 64

lemma list_range_map_sum (f : ℕ → ℚ) (n : ℕ) :
    ((List.range n).map f).sum = ∑ k in Finset.range n, f k := by
  induction n with
  | zero => simp
  | succ n ih =>
      rw [List.range_succ, List.map_append, List.sum_append, Finset.sum_range_succ, ih]
      simp

lemma slots_offset_pos : ∀ s ∈ SLOTS, 0 < s.2 := by decide

/-- For the fixed slot table the guard in the inner loop never fires. -/
lemma inner_sum_eq_unguarded (coefs : List ℚ) (k : ℕ) :
    inner_sum (SLOTS.zip coefs) k = inner_sum_unguarded (SLOTS.zip coefs) k := by
  unfold inner_sum inner_sum_unguarded
  congr 1
  apply List.map_congr_left
  intro pc hpc
  obtain ⟨⟨period, offset⟩, c⟩ := pc
  have hs : (period, offset) ∈ SLOTS := (List.of_mem_zip hpc).1
  have hoff : 0 < offset := slots_offset_pos _ hs
  have hdef : slot_term ((period, offset), c) k =
      if period * k + offset ≠ 0 then c / ((period * k + offset : ℕ) : ℚ) else 0 := rfl
  rw [hdef, if_pos (by omega : period * k + offset ≠ 0)]

lemma eval_series_natCast (cfg : List ((ℕ × ℕ) × ℚ)) (n precision : ℕ) :
    eval_series cfg (n : ℤ) precision =
      (∑ k in Finset.range n, (-1 : ℚ) ^ k * (1 / (4096 : ℚ) ^ k) * inner_sum cfg k) / 64 := by
  unfold eval_series
  rw [Int.toNat_natCast, list_range_map_sum]

/-- C2: for every `n_terms ≥ 0` and positive precision, each evaluator returns
the spec partial sum (alternating sign starting at +1, base `4096^(-k)`, the
per-slot effective coefficient being integer part plus correction in corrected
mode or the integer part alone in integer-only mode, final division by 64);
in particular the empty sum at `n_terms = 0` gives 0. -/
theorem evaluate_matches_spec_sum (n precision : ℕ) (hp : 0 < precision) :
    evaluate_phi_bbp (n : ℤ) precision = specSeriesSum (SLOTS.zip spec_effective_corrected) n ∧
    evaluate_integer_only (n : ℤ) precision = specSeriesSum (SLOTS.zip spec_effective_int) n ∧
    evaluate_phi_bbp 0 precision = 0 ∧
    evaluate_integer_only 0 precision = 0 := by
  have hcoef : effective_coefs = spec_effective_corrected := rfl
  have hint : int_coefs_q = spec_effective_int := rfl
  refine ⟨?_, ?_, ?_, ?_⟩
  · rw [evaluate_phi_bbp, hcoef, eval_series_natCast, specSeriesSum]
    congr 1
    refine Finset.sum_congr rfl fun k _ => ?_
    rw [inner_sum_eq_unguarded, one_div]
  · rw [evaluate_integer_only, hint, eval_series_natCast, specSeriesSum]
    congr 1
    refine Finset.sum_congr rfl fun k _ => ?_
    rw [inner_sum_eq_unguarded, one_div]
  · rw [evaluate_phi_bbp, show (0 : ℤ) = ((0 : ℕ) : ℤ) from rfl, eval_series_natCast]
    simp
  · rw [evaluate_integer_only, show (0 : ℤ) = ((0 : ℕ) : ℤ) from rfl, eval_series_natCast]
    simp

/-- Witness for C2 at `n_terms = 2`, `precision = 10`. -/
theorem evaluate_matches_spec_sum_witness :
    0 < 10 ∧
      (evaluate_phi_bbp ((2 : ℕ) : ℤ) 10 = specSeriesSum (SLOTS.zip spec_effective_corrected) 2 ∧
       evaluate_integer_only ((2 : ℕ) : ℤ) 10 = specSeriesSum (SLOTS.zip spec_effective_int) 2 ∧
       evaluate_phi_bbp 0 10 = 0 ∧
       evaluate_integer_only 0 10 = 0) :=
  ⟨by decide, evaluate_matches_spec_sum 2 10 (by decide)⟩

/-- C8: under the slot invariants (period 4 or 12, offset odd, 0 < offset <
period) the denominator `period·k + offset` is never zero for `k ≥ 0`, the
guarded slot contribution is always the plain division (the skip branch is
unreachable), and for the fixed slot table the whole inner sum equals its
unguarded form. -/
theorem slot_denominator_never_zero (period offset k : ℕ) (c : ℚ)
    (hp : period = 4 ∨ period = 12) (ho : Odd offset) (h0 : 0 < offset)
    (hlt : offset < period) :
    period * k + offset ≠ 0 ∧
    slot_term ((period, offset), c) k = c / ((period * k + offset : ℕ) : ℚ) ∧
    inner_sum (SLOTS.zip effective_coefs) k = inner_sum_unguarded (SLOTS.zip effective_coefs) k := by
  refine ⟨by omega, ?_, inner_sum_eq_unguarded _ k⟩
  have hdef : slot_term ((period, offset), c) k =
      if period * k + offset ≠ 0 then c / ((period * k + offset : ℕ) : ℚ) else 0 := rfl
  rw [hdef, if_pos (by omega : period * k + offset ≠ 0)]

/-- Witness for C8 at slot (4, 1), `k = 0`, coefficient 7. -/
theorem slot_denominator_never_zero_witness :
    ((4 : ℕ) = 4 ∨ (4 : ℕ) = 12) ∧ Odd (1 : ℕ) ∧ (0 : ℕ) < 1 ∧ (1 : ℕ) < 4 ∧
      (4 * 0 + 1 ≠ 0 ∧
       slot_term ((4, 1), (7 : ℚ)) 0 = 7 / ((4 * 0 + 1 : ℕ) : ℚ) ∧
       inner_sum (SLOTS.zip effective_coefs) 0 = inner_sum_unguarded (SLOTS.zip effective_coefs) 0) :=
  ⟨Or.inl rfl, by decide, by decide, by decide,
    slot_denominator_never_zero 4 1 0 7 (Or.inl rfl) (by decide) (by decide) (by decide)⟩

/-- C9: permuting the slot/coefficient configuration (slots together with
their coefficients) does not change the series evaluator result, for every
term count and precision. -/
theorem eval_series_perm_invariant (cfg cfg2 : List ((ℕ × ℕ) × ℚ)) (n_terms : ℤ)
    (precision : ℕ) (h : cfg.Perm cfg2) :
    eval_series cfg n_terms precision = eval_series cfg2 n_terms precision := by
  have hinner : ∀ k, inner_sum cfg k = inner_sum cfg2 k := fun k =>
    List.Perm.sum_eq (h.map fun pc => slot_term pc k)
  unfold eval_series
  simp only [hinner]

/-- Witness for C9: swapping two concrete slots leaves the value unchanged. -/
theorem eval_series_perm_invariant_witness :
    (([((4, 3), (3 : ℚ)), ((4, 1), 2)] : List ((ℕ × ℕ) × ℚ)).Perm
        [((4, 1), 2), ((4, 3), 3)]) ∧
    eval_series [((4, 3), (3 : ℚ)), ((4, 1), 2)] 5 100 =
      eval_series [((4, 1), (2 : ℚ)), ((4, 3), 3)] 5 100 :=
  ⟨List.Perm.swap _ _ _, eval_series_perm_invariant _ _ 5 100 (List.Perm.swap _ _ _)⟩

/-! ### Convergence-rate analyzer (verify_formula.py lines 133-169) -/

/-- `theoretical_rate = np.log10(4096)` (verify_formula.py line 162). -/
noncomputable def theoretical_rate : ℝ := Real.logb 10 4096

open Classical in
/-- The empirical rate computed by `verify_convergence_rate` (verify_formula.py
lines 150-159) from a sample list of (n_terms, error) pairs: it reads the
first (`errors[0]`) and last (`errors[-1]`) sample; if both errors are
positive it returns `(log10 e1 - log10 e2) / (n2 - n1)`, otherwise the
hard-coded fallback `3.61`. -/
noncomputable def empirical_rate (errors : List (ℤ × ℝ)) : ℝ :=
  if 0 < (errors.getLastD (0, 0)).2 ∧ 0 < (errors.headD (0, 0)).2 then
    (Real.logb 10 (errors.headD (0, 0)).2 - Real.logb 10 (errors.getLastD (0, 0)).2) /
      (((errors.getLastD (0, 0)).1 : ℝ) - ((errors.headD (0, 0)).1 : ℝ))
  else 3.61

/-- The boolean returned by `verify_convergence_rate` (verify_formula.py
line 169): `abs(rate - theoretical_rate) < 0.5`. -/
def verify_convergence_rate (errors : List (ℤ × ℝ)) : Prop :=
  |empirical_rate errors - theoretical_rate| < 0.5

lemma theoretical_rate_lt_four : theoretical_rate < 4 := by
  unfold theoretical_rate
  have h4 : Real.logb 10 4096 < Real.logb 10 10000 :=
    Real.logb_lt_logb (by norm_num) (by norm_num) (by norm_num)
  have h10 : Real.logb 10 10000 = 4 := by
    rw [show (10000 : ℝ) = (10 : ℝ) ^ ((4 : ℕ) : ℝ) by rw [Real.rpow_natCast]; norm_num]
    exact Real.logb_rpow (by norm_num) (by norm_num)
  linarith

lemma theoretical_rate_gt : (311 : ℝ) / 100 < theoretical_rate := by
  unfold theoretical_rate
  rw [Real.lt_logb_iff_rpow_lt (by norm_num) (by norm_num)]
  have hpow : ((10 : ℝ) ^ ((311 : ℝ) / 100)) ^ (100 : ℕ) < (4096 : ℝ) ^ (100 : ℕ) := by
    rw [← Real.rpow_natCast ((10 : ℝ) ^ ((311 : ℝ) / 100)) 100,
      ← Real.rpow_mul (by norm_num : (0 : ℝ) ≤ 10)]
    rw [show (311 : ℝ) / 100 * ((100 : ℕ) : ℝ) = ((311 : ℕ) : ℝ) by norm_num,
      Real.rpow_natCast]
    norm_num
  exact lt_of_pow_lt_pow_left₀ 100 (by norm_num) hpow

lemma fallback_passes : |(361 : ℝ) / 100 - theoretical_rate| < 0.5 := by
  rw [abs_lt]
  constructor
  · have := theoretical_rate_lt_four
    norm_num
    linarith
  · have := theoretical_rate_gt
    norm_num
    linarith

lemma fallback_ne_theoretical : (361 : ℝ) / 100 ≠ theoretical_rate := by
  intro h
  unfold theoretical_rate at h
  have h1 : (10 : ℝ) ^ Real.logb 10 4096 = 4096 :=
    Real.rpow_logb (by norm_num) (by norm_num) (by norm_num)
  rw [← h] at h1
  have h2 : ((10 : ℝ) ^ ((361 : ℝ) / 100)) ^ (100 : ℕ) = (4096 : ℝ) ^ (100 : ℕ) := by
    rw [h1]
  rw [← Real.rpow_natCast ((10 : ℝ) ^ ((361 : ℝ) / 100)) 100,
    ← Real.rpow_mul (by norm_num : (0 : ℝ) ≤ 10)] at h2
  rw [show (361 : ℝ) / 100 * ((100 : ℕ) : ℝ) = ((361 : ℕ) : ℝ) by norm_num,
    Real.rpow_natCast] at h2
  norm_num at h2

/-- C4 (counterexample): on a degenerate sample list whose errors are exactly
zero, the analyzer falls back to the hard-coded constant `3.61 = 361/100`,
which is not the theoretical rate `log10(4096)`. -/
theorem convergence_fallback_counterexample :
    empirical_rate [((1 : ℤ), (0 : ℝ)), (5, 0)] = 361 / 100 ∧
      (361 : ℝ) / 100 ≠ theoretical_rate := by
  refine ⟨?_, fallback_ne_theoretical⟩
  unfold empirical_rate
  rw [if_neg]
  · norm_num
  · simp [List.getLastD_cons]

/-- C4 (amended): if the first or last sample error is non-positive, the
analyzer falls back to the hard-coded rate `3.61` (approximately, but not
equal to, `log10(4096)`), and the fallback is silent: the check still returns
only the pass/fail boolean, and since `|3.61 - log10 4096| < 0.5` the
degenerate run passes, indistinguishable from a genuine measurement. -/
theorem convergence_fallback_silent (errors : List (ℤ × ℝ))
    (h : (errors.headD (0, 0)).2 ≤ 0 ∨ (errors.getLastD (0, 0)).2 ≤ 0) :
    empirical_rate errors = 361 / 100 ∧ verify_convergence_rate errors := by
  have hrate : empirical_rate errors = 361 / 100 := by
    unfold empirical_rate
    rw [if_neg]
    · norm_num
    · rcases h with h | h
      · exact fun hc => absurd hc.2 (not_lt.mpr h)
      · exact fun hc => absurd hc.1 (not_lt.mpr h)
  refine ⟨hrate, ?_⟩
  unfold verify_convergence_rate
  rw [hrate]
  exact fallback_passes

/-- Witness for C4 (amended) at the degenerate list `[(1, 0), (5, 1)]`. -/
theorem convergence_fallback_silent_witness :
    ((([((1 : ℤ), (0 : ℝ)), (5, 1)]).headD (0, 0)).2 ≤ 0 ∨
        (([((1 : ℤ), (0 : ℝ)), (5, 1)]).getLastD (0, 0)).2 ≤ 0) ∧
      (empirical_rate [((1 : ℤ), (0 : ℝ)), (5, 1)] = 361 / 100 ∧
        verify_convergence_rate [((1 : ℤ), (0 : ℝ)), (5, 1)]) :=
  ⟨Or.inl (by norm_num), convergence_fallback_silent _ (Or.inl (by norm_num))⟩

/-- C5: for a sample list with positive first and last errors, the analyzer
passes if and only if the empirical rate, computed from the first and last
sample only as `(log10 e1 - log10 e2) / (n2 - n1)`, lies within ±0.5 of the
theoretical rate `log10(4096)`; middle samples are ignored. -/
theorem convergence_rate_first_last (n1 n2 : ℤ) (e1 e2 : ℝ) (mid : List (ℤ × ℝ))
    (h1 : 0 < e1) (h2 : 0 < e2) :
    verify_convergence_rate ((n1, e1) :: (mid ++ [(n2, e2)])) ↔
      |(Real.logb 10 e1 - Real.logb 10 e2) / ((n2 : ℝ) - (n1 : ℝ)) -
          Real.logb 10 4096| < 0.5 := by
  have hhead : (((n1, e1) :: (mid ++ [(n2, e2)])).headD (0, 0)) = (n1, e1) := rfl
  have hlast : (((n1, e1) :: (mid ++ [(n2, e2)])).getLastD (0, 0)) = (n2, e2) := by
    rw [List.getLastD_cons, List.getLastD_concat]
  unfold verify_convergence_rate empirical_rate theoretical_rate
  rw [hhead, hlast, if_pos ⟨h2, h1⟩]

/-- Witness for C5 at the two-sample list `[(1, 1), (5, 1)]`. -/
theorem convergence_rate_first_last_witness :
    ((0 : ℝ) < 1 ∧ (0 : ℝ) < 1) ∧
      (verify_convergence_rate [((1 : ℤ), (1 : ℝ)), (5, 1)] ↔
        |(Real.logb 10 1 - Real.logb 10 1) / (((5 : ℤ) : ℝ) - ((1 : ℤ) : ℝ)) -
            Real.logb 10 4096| < 0.5) :=
  ⟨⟨by norm_num, by norm_num⟩,
    convergence_rate_first_last 1 5 1 1 [] (by norm_num) (by norm_num)⟩

/-! ### Total-correction closed form (verify_formula.py lines 199-227 and
generate_figures.py lines 216-251) -/

/-- The golden ratio `φ = (1 + √5)/2` (`mpmath.phi`). -/
noncomputable def phi : ℝ := (1 + Real.sqrt 5) / 2

/-- `atan_phi = atan(1/PHI)` (verify_formula.py line 210). -/
noncomputable def atan_phi : ℝ := Real.arctan (1 / phi)

/-- `log_phi = log(PHI)` (verify_formula.py line 211). -/
noncomputable def log_phi : ℝ := Real.log phi

/-- `total = sum(PHI_CORRECTIONS)` (verify_formula.py line 208). -/
def total_correction : ℚ := PHI_CORRECTIONS.sum

/-- `closed_form = (13/20) * atan_phi + (-26/25) * log_phi`
(verify_formula.py line 214). -/
noncomputable def closed_form : ℝ := (13 / 20) * atan_phi + (-26 / 25) * log_phi

/-- The boolean returned by `verify_total_correction` (verify_formula.py
lines 216-227): `abs(total - closed_form) < 1e-5`. -/
def verify_total_correction : Prop :=
  |(total_correction : ℝ) - closed_form| < 1e-5

/-- The error surface explored by the diagnostic grid search of
`figure3_closed_form` (generate_figures.py lines 232-236):
`abs(a*atan_phi + b*log_phi - total)` at a candidate pair (a, b). -/
noncomputable def figure3_error_grid (a b : ℝ) : ℝ :=
  |a * atan_phi + b * log_phi - (total_correction : ℝ)|

/-- `best_a = 13/20` (generate_figures.py line 249): a hard-coded constant,
not an output of the grid search. -/
noncomputable def figure3_best_a : ℝ := 13 / 20

/-- `best_b = -26/25` (generate_figures.py line 250): a hard-coded constant,
not an output of the grid search. -/
noncomputable def figure3_best_b : ℝ := -26 / 25

/-- The point the figure marks (generate_figures.py line 251):
`ax1.plot(best_b, best_a, ...)`.  It is a function of the searched ranges in
name only — the source marks the hard-coded pair whatever the grid holds. -/
noncomputable def figure3_marked_point (a_range b_range : List ℝ) : ℝ × ℝ :=
  (figure3_best_b, figure3_best_a)

/-- C6: the total-correction check sums the 8 corrections, compares them to
the fixed closed form `(13/20)·atan(1/φ) + (-26/25)·log(φ)`, and passes iff
the absolute difference is below 1e-5; the figure-only grid search marks the
same hard-coded pair for every searched range and never selects the pair used
by the check. -/
theorem total_correction_fixed_pair :
    PHI_CORRECTIONS.length = 8 ∧
    (verify_total_correction ↔
      |((PHI_CORRECTIONS.sum : ℚ) : ℝ) -
          ((13 / 20 : ℝ) * Real.arctan (1 / phi) + (-26 / 25 : ℝ) * Real.log phi)| < 1e-5) ∧
    figure3_best_a = 13 / 20 ∧ figure3_best_b = -26 / 25 ∧
    (∀ a_range b_range : List ℝ,
      figure3_marked_point a_range b_range = (figure3_best_b, figure3_best_a)) :=
  ⟨rfl, Iff.rfl, rfl, rfl, fun _ _ => rfl⟩

/-! ### Mathematical identities (verify_formula.py lines 250-305) -/

/-- The polylogarithm `Li_s(x) = Σ_{n≥1} x^n / n^s` (`mpmath.polylog`),
written over the summation index shifted to start at 0. -/
noncomputable def Li (s : ℕ) (x : ℝ) : ℝ :=
  tsum fun n : ℕ => x ^ (n + 1) / ((n + 1 : ℕ) : ℝ) ^ s

/-- Identity check 1: `φ² + φ⁻² = 3` within 1e-10 (verify_formula.py
lines 262-267). -/
def id_check1 : Prop := |phi ^ 2 + phi ^ (-2 : ℤ) - 3| < 1e-10

/-- Identity check 2: `φ² + φ⁻² + 1 = 4` within 1e-10 (verify_formula.py
lines 270-275). -/
def id_check2 : Prop := |phi ^ 2 + phi ^ (-2 : ℤ) + 1 - 4| < 1e-10

/-- Identity check 3: `arctan(1/φ) + arctan(1/φ³) = π/4` within 1e-10
(verify_formula.py lines 278-283). -/
def id_check3 : Prop :=
  |Real.arctan (1 / phi) + Real.arctan (1 / phi ^ 3) - Real.pi / 4| < 1e-10

/-- Identity check 4: `Li₁(1/φ) = 2·log(φ)` within 1e-10 (verify_formula.py
lines 286-292). -/
def id_check4 : Prop := |Li 1 (1 / phi) - 2 * Real.log phi| < 1e-10

/-- Identity check 5: `Li₂(1/φ²) = π²/15 - log²(φ)` within 1e-10
(verify_formula.py lines 295-301). -/
def id_check5 : Prop :=
  |Li 2 (1 / phi ^ 2) - (Real.pi ^ 2 / 15 - Real.log phi ^ 2)| < 1e-10

/-- The five identity checks, in source order. -/
def identity_checks : List Prop := [id_check1, id_check2, id_check3, id_check4, id_check5]

/-- The aggregate computed by `verify_mathematical_identities`
(verify_formula.py lines 259-305): `all_verified` starts `True` and is
conjoined with each check in turn. -/
def verify_mathematical_identities : Prop :=
  ((((True ∧ id_check1) ∧ id_check2) ∧ id_check3) ∧ id_check4) ∧ id_check5

/-- C7: the identity verifier checks exactly the five fixed golden-ratio
identities, each against tolerance 1e-10; the checks are independent (each is
evaluated on its own and all of them appear in the check list) and the
aggregate holds iff every one of the five passes. -/
theorem identities_independent_and_aggregated :
    identity_checks.length = 5 ∧
    (verify_mathematical_identities ↔
      (|phi ^ 2 + phi ^ (-2 : ℤ) - 3| < 1e-10 ∧
       |phi ^ 2 + phi ^ (-2 : ℤ) + 1 - 4| < 1e-10 ∧
       |Real.arctan (1 / phi) + Real.arctan (1 / phi ^ 3) - Real.pi / 4| < 1e-10 ∧
       |Li 1 (1 / phi) - 2 * Real.log phi| < 1e-10 ∧
       |Li 2 (1 / phi ^ 2) - (Real.pi ^ 2 / 15 - Real.log phi ^ 2)| < 1e-10)) ∧
    (verify_mathematical_identities ↔ ∀ c ∈ identity_checks, c) := by
  refine ⟨rfl, ?_, ?_⟩
  · unfold verify_mathematical_identities id_check1 id_check2 id_check3 id_check4 id_check5
    tauto
  · unfold verify_mathematical_identities identity_checks
    simp only [List.forall_mem_cons, List.forall_mem_singleton]
    tauto

/-! ### Harness orchestration (verify_formula.py lines 337-377) -/

/-- The exit status of the process (verify_formula.py line 377):
`exit(0 if success else 1)`. -/
def exit_code (success : Bool) : ℕ := if success then 0 else 1

/-- The seven check names reported by `main` (verify_formula.py
lines 346-352). -/
def check_names : List String :=
  ["Accuracy", "Convergence Rate", "φ-Pattern", "Total Correction",
   "Bellard Comparison", "Mathematical Identities", "Integer Improvement"]

/-- The report assembled by `main` (verify_formula.py lines 344-352),
parameterized by the seven booleans the sub-checks return.  Every entry is
appended unconditionally — a failing check does not stop the later ones. -/
def main_report (r : Fin 7 → Bool) : List (String × Bool) :=
  [("Accuracy", r 0), ("Convergence Rate", r 1), ("φ-Pattern", r 2),
   ("Total Correction", r 3), ("Bellard Comparison", r 4),
   ("Mathematical Identities", r 5), ("Integer Improvement", r 6)]

/-- The summary fold of `main` (verify_formula.py lines 359-363):
`all_passed` starts `True` and is conjoined with each reported boolean. -/
def main_all_passed (r : Fin 7 → Bool) : Bool :=
  (main_report r).foldl (fun acc nb => acc && nb.2) true

/-- C1: for every outcome of the seven sub-checks, the harness reports all
seven named checks (so no short-circuit on failure), the overall result is
the conjunction of the seven booleans, and the process exit status is 0 iff
the overall result is true, 1 otherwise. -/
theorem harness_seven_checks (r : Fin 7 → Bool) :
    (main_report r).length = 7 ∧
    (main_report r).map Prod.fst = check_names ∧
    main_all_passed r = (r 0 && r 1 && r 2 && r 3 && r 4 && r 5 && r 6) ∧
    (exit_code (main_all_passed r) = 0 ↔ main_all_passed r = true) ∧
    exit_code false = 1 := by
  refine ⟨rfl, rfl, rfl, ?_, rfl⟩
  cases hb : main_all_passed r <;> simp [exit_code, hb]

end PhiBBP
